import Mathlib

/-!
Verification development for the Downloader backend (FastAPI download manager).

Shallow embedding of the job state machine, control registry, transfer engine
and link resolver from:
  backend/app/api.py            (coordinator `process_download_job`, command handlers)
  backend/app/services/downloader.py  (`FileDownloader`, `OneFichierClient`)
  backend/app/services/plex.py  (`PlexClient.refresh_library`)
  backend/app/models.py         (`DownloadJob`, `DownloadStatus`)

Python machine-level I/O (HTTP transport, the SQL store, the event log sink)
is abstracted: the response body is a list of byte chunks, the persisted job
record is an explicit structure threaded through the coordinator logic, and
outbound calls are oracles (`Except`-valued parameters).
-/

/-- `DownloadStatus` enum from `models.py`. -/
inductive DownloadStatus
  | queued
  | running
  | success
  | failed
  | paused
  | canceled
  deriving DecidableEq, Repr

/-- The fields of the persisted `DownloadJob` record (from `models.py`) that the
coordinator logic reads or writes.  `id`, `source_url`, `target_dir` and the
timestamps are configuration/bookkeeping and are carried by the surrounding
context instead.  `progress_percent` (a Python float) is embedded as an exact
rational. -/
structure JobRecord where
  fileName : Option String
  savedPath : Option String
  bytesDownloaded : Nat
  totalBytes : Option Int
  progressPercent : ℚ
  pauseRequested : Bool
  stopRequested : Bool
  isHidden : Bool
  status : DownloadStatus
  errorMessage : Option String
  deriving DecidableEq, Repr

/-- In-memory control handle for one job: `JobControl` from `api.py`
(a pair of `asyncio.Event`s, embedded as their set/unset state). -/
structure JobControl where
  pauseEvent : Bool
  stopEvent : Bool
  deriving DecidableEq, Repr

/-- The process-wide `job_controls: dict[str, JobControl]` table, embedded as a
partial map from job identifier to control handle. -/
def ControlRegistry := String → Option JobControl

/-- `_get_job_control`: return the existing entry, creating an unset one if
absent.  Returns the handle together with the updated table. -/
def getJobControl (reg : ControlRegistry) (jobId : String) :
    JobControl × ControlRegistry :=
  match reg jobId with
  | some control => (control, reg)
  | none =>
      let control : JobControl := ⟨false, false⟩
      (control, fun k => if k = jobId then some control else reg k)

/-- `_pop_job_control`: `job_controls.pop(job_id, None)` — remove the entry if
present, silently do nothing otherwise. -/
def popJobControl (reg : ControlRegistry) (jobId : String) : ControlRegistry :=
  fun k => if k = jobId then none else reg k

/-- `stop_download` handler (api.py): on a `running` job set the stop event and
the request flags; on a `queued`/`paused` job transition it to `canceled`;
otherwise (terminal `success`/`failed`/`canceled`) change nothing. -/
def stopDownload (reg : ControlRegistry) (jobId : String) (job : JobRecord) :
    ControlRegistry × JobRecord :=
  if job.status = DownloadStatus.running then
    let (control, reg1) := getJobControl reg jobId
    let control1 := { control with stopEvent := true }
    let reg2 : ControlRegistry := fun k => if k = jobId then some control1 else reg1 k
    (reg2, { job with stopRequested := true, pauseRequested := false })
  else if job.status = DownloadStatus.queued ∨ job.status = DownloadStatus.paused then
    (reg, { job with status := DownloadStatus.canceled,
                     errorMessage := some "Stopped by user",
                     pauseRequested := false, stopRequested := false })
  else
    (reg, job)

/-- `pause_download` handler (api.py): on a `running` job set the pause event
and request flags; on a `queued` job transition it to `paused`; otherwise
change nothing. -/
def pauseDownload (reg : ControlRegistry) (jobId : String) (job : JobRecord) :
    ControlRegistry × JobRecord :=
  if job.status = DownloadStatus.running then
    let (control, reg1) := getJobControl reg jobId
    let control1 := { control with pauseEvent := true }
    let reg2 : ControlRegistry := fun k => if k = jobId then some control1 else reg1 k
    (reg2, { job with pauseRequested := true, stopRequested := false })
  else if job.status = DownloadStatus.queued then
    (reg, { job with status := DownloadStatus.paused,
                     errorMessage := some "Paused by user",
                     pauseRequested := false, stopRequested := false })
  else
    (reg, job)

/-- Cooperative signal observed by the transfer loop. -/
inductive Signal
  | pause
  | stop
  deriving DecidableEq, Repr

/-- `get_control_signal` closure from `process_download_job` (api.py): the stop
event is consulted first, then the pause event. -/
def getControlSignal (control : JobControl) : Option Signal :=
  if control.stopEvent then some Signal.stop
  else if control.pauseEvent then some Signal.pause
  else none

/-! ## Python `int()` parsing and `_parse_int_header` -/

/-- Python `str.strip()` with no argument: remove leading and trailing
whitespace. -/
def pyStrip (s : String) : String :=
  String.mk (((s.data.dropWhile Char.isWhitespace).reverse.dropWhile
    Char.isWhitespace).reverse)

/-- Digit-and-underscore run of a Python integer literal: after an accepted
digit, an underscore may appear only when immediately followed by another
digit (CPython grammar for underscores in numeric literals). -/
def digitsCore : List Char → Nat → Option Nat
  | [], acc => some acc
  | c :: rest, acc =>
      if c.isDigit then digitsCore rest (acc * 10 + (c.toNat - 48))
      else if c = '_' then
        match rest with
        | [] => none
        | d :: _ => if d.isDigit then digitsCore rest acc else none
      else none

/-- Parse an unsigned decimal digit string the way Python `int()` accepts it
(no leading or trailing underscore, no doubled underscore). -/
def digitsToNat (l : List Char) : Option Nat :=
  match l with
  | [] => none
  | c :: _ => if c.isDigit then digitsCore l 0 else none

/-- Python `int(s)` on a decimal string: surrounding whitespace is stripped, an
optional single sign is allowed, then a digit run; anything else raises
`ValueError`, embedded as `none`. -/
def pythonInt (s : String) : Option Int :=
  match (pyStrip s).data with
  | [] => none
  | c :: rest =>
      if c = '+' then (digitsToNat rest).map Int.ofNat
      else if c = '-' then (digitsToNat rest).map (fun n => -(n : Int))
      else (digitsToNat (c :: rest)).map Int.ofNat

/-- `FileDownloader._parse_int_header` (downloader.py): a missing or empty
header is `None`; else `int(value)`, keeping the result only when
non-negative; a `ValueError` yields `None`. -/
def parseIntHeader (value : Option String) : Option Int :=
  match value with
  | none => none
  | some s =>
      if s = "" then none
      else
        match pythonInt s with
        | none => none
        | some parsed => if 0 ≤ parsed then some parsed else none

/-! ## Path helpers (pathlib `Path.stem` / `Path.suffix` on a file name) -/

/-- Index of the last `'.'` in a character list, if any. -/
def lastDotIdx (l : List Char) : Option Nat :=
  match l.reverse.findIdx? (· = '.') with
  | none => none
  | some j => some (l.length - 1 - j)

/-- `pathlib.PurePath.suffix` of a bare file name: the substring from the last
dot, provided that dot is neither the first nor the last character. -/
def pathSuffix (name : String) : String :=
  match lastDotIdx name.data with
  | none => ""
  | some i =>
      if 0 < i ∧ i < name.data.length - 1 then String.mk (name.data.drop i) else ""

/-- `pathlib.PurePath.stem` of a bare file name: the part before `suffix`. -/
def pathStem (name : String) : String :=
  match lastDotIdx name.data with
  | none => name
  | some i =>
      if 0 < i ∧ i < name.data.length - 1 then String.mk (name.data.take i) else name

/-- ASCII lower-casing of a string (Python `str.lower()` on ASCII data). -/
def strLower (s : String) : String := String.mk (s.data.map Char.toLower)

/-! ## Transfer engine: the streaming loop of `FileDownloader.download`

The body of one attempt of `FileDownloader.download` (downloader.py), from the
point where the response headers have been validated.  The HTTP response body
is embedded as a list of byte chunks (`aiter_bytes`), a byte being a `Nat`
codepoint; the control-signal callback is a function from the poll ordinal
(one poll before each chunk write) to the observed signal.  The retry loop
around attempts only re-enters on `httpx` transport exceptions, which are
outside this embedding's input space (the body is fully materialised), so one
attempt is modelled. -/

/-- `DownloadInterrupted.reason` values. -/
inductive InterruptReason
  | pausedReason
  | stoppedReason
  deriving DecidableEq, Repr

/-- Result of the chunk-streaming `for` loop: either interrupted by a signal
(carrying the bytes written so far) or completed. -/
inductive StreamResult
  | interrupted (reason : InterruptReason) (written : List Nat) (bytesDownloaded : Nat)
  | done (written : List Nat) (bytesDownloaded : Nat)
  deriving DecidableEq, Repr

/-- The `async for chunk in response.aiter_bytes(...)` loop: before writing
each chunk, poll the control signal; `pause`/`stop` abort with a
`DownloadInterrupted`; otherwise append the chunk and continue.  `written` is
the file content so far, `bytes` the running count, `i` the poll ordinal. -/
def runStream (signals : Nat → Option Signal) :
    List (List Nat) → List Nat → Nat → Nat → StreamResult
  | [], written, bytes, _ => StreamResult.done written bytes
  | chunk :: rest, written, bytes, i =>
      match signals i with
      | some Signal.pause => StreamResult.interrupted InterruptReason.pausedReason written bytes
      | some Signal.stop => StreamResult.interrupted InterruptReason.stoppedReason written bytes
      | none => runStream signals rest (written ++ chunk) (bytes + chunk.length) (i + 1)

/-- Python `x or y` on optional sizes (`_parse_int_header(...) or
expected_total_bytes`): `None` and `0` are both falsy and fall back to the
right operand. -/
def pythonOrOpt (a b : Option Int) : Option Int :=
  match a with
  | none => b
  | some n => if n = 0 then b else some n

/-- `bytes.lower()` on one byte: ASCII upper-case letters are shifted. -/
def byteLower (b : Nat) : Nat := if 65 ≤ b ∧ b ≤ 90 then b + 32 else b

/-- Byte string of an ASCII literal. -/
def strBytes (s : String) : List Nat := s.data.map Char.toNat

/-- Outcome of one `FileDownloader.download` attempt over a materialised body.
`incompleteError` and `htmlPageError` are the two `RuntimeError`s raised after
the loop; in both the file has been unlinked.  `interrupted` re-raises
`DownloadInterrupted` with the partial file retained on disk. -/
inductive AttemptResult
  | interrupted (reason : InterruptReason) (path : String) (bytesDownloaded : Nat)
      (totalBytes : Option Int) (partialFile : List Nat)
  | incompleteError (expected : Int) (got : Nat)
  | htmlPageError
  | ok (path : String) (bytesDownloaded : Nat) (totalBytes : Option Int) (file : List Nat)
  deriving DecidableEq, Repr

/-- One attempt of `FileDownloader.download` after header validation:
determine `total_bytes` from the length header with fallback to the caller's
expected size, stream the chunks with signal polling, then run the
incomplete-transfer check and the HTML-error-page sniff.  `targetName` is the
deduplicated target file name chosen before the loop. -/
def downloadAttempt (contentLength : Option String) (expectedTotal : Option Int)
    (targetName : String) (signals : Nat → Option Signal)
    (chunks : List (List Nat)) : AttemptResult :=
  let totalBytes := pythonOrOpt (parseIntHeader contentLength) expectedTotal
  match runStream signals chunks [] 0 0 with
  | StreamResult.interrupted reason written bytes =>
      AttemptResult.interrupted reason targetName bytes totalBytes written
  | StreamResult.done written bytes =>
      let afterIntegrity : AttemptResult :=
        if bytes < 1024 ∧ strLower (pathSuffix targetName) ∈ ["", ".bin", ".html"] then
          let filePrefix := (written.take 256).map byteLower
          if strBytes "<html" <:+: filePrefix ∨ strBytes "1fichier" <:+: filePrefix then
            AttemptResult.htmlPageError
          else AttemptResult.ok targetName bytes totalBytes written
        else AttemptResult.ok targetName bytes totalBytes written
      match totalBytes with
      | some t =>
          if (bytes : Int) ≠ t then AttemptResult.incompleteError t bytes
          else afterIntegrity
      | none => afterIntegrity

/-! ## Coordinator: the post-`running` section of `process_download_job` -/

/-- Error text of the incomplete-transfer `RuntimeError`. -/
def incompleteMsg (expected : Int) (got : Nat) : String :=
  "Incomplete download: expected " ++ toString expected ++ " bytes, got " ++
    toString got ++ " bytes"

/-- The `try/except/finally` of `process_download_job` (api.py) from the point
where the job has been committed as `running` and the link resolved: apply the
resolved filename/size, dispatch on the download outcome and the
library-refresh outcome, and clear the request flags (the `finally` block).
Returns the committed job record together with the file remaining at the
target path (`none` once unlinked).  A refresh failure is an exception raised
between the successful `download(...)` call and the `success` assignments, so
it is caught by the generic handler. -/
def processOutcome (job0 : JobRecord) (resolvedFilename : Option String)
    (resolvedSize : Option Int) (attempt : AttemptResult)
    (refresh : Except String Unit) : JobRecord × Option (List Nat) :=
  let job1 := { job0 with fileName := resolvedFilename, totalBytes := resolvedSize }
  match attempt with
  | AttemptResult.ok path bytes total file =>
      match refresh with
      | Except.ok _ =>
          ({ job1 with status := DownloadStatus.success, savedPath := some path,
                       fileName := some path, bytesDownloaded := bytes,
                       totalBytes := total, progressPercent := 100,
                       errorMessage := none,
                       pauseRequested := false, stopRequested := false }, some file)
      | Except.error m =>
          ({ job1 with status := DownloadStatus.failed, errorMessage := some m,
                       pauseRequested := false, stopRequested := false }, some file)
  | AttemptResult.interrupted reason path bytes total partialFile =>
      let progress : ℚ :=
        match total with
        | some t => if t ≠ 0 then min 100 ((bytes : ℚ) * 100 / (t : ℚ)) else 0
        | none => 0
      match reason with
      | InterruptReason.pausedReason =>
          ({ job1 with status := DownloadStatus.paused, savedPath := some path,
                       fileName := some path, bytesDownloaded := bytes,
                       totalBytes := total, progressPercent := progress,
                       errorMessage := some "Paused by user",
                       pauseRequested := false, stopRequested := false }, some partialFile)
      | InterruptReason.stoppedReason =>
          ({ job1 with status := DownloadStatus.canceled, savedPath := none,
                       bytesDownloaded := bytes, totalBytes := total,
                       progressPercent := progress,
                       errorMessage := some "Stopped by user",
                       pauseRequested := false, stopRequested := false }, none)
  | AttemptResult.incompleteError t got =>
      ({ job1 with status := DownloadStatus.failed,
                   errorMessage := some (incompleteMsg t got),
                   pauseRequested := false, stopRequested := false }, none)
  | AttemptResult.htmlPageError =>
      ({ job1 with status := DownloadStatus.failed,
                   errorMessage := some "1fichier returned an HTML page instead of a file",
                   pauseRequested := false, stopRequested := false }, none)

/-! ## Theorems: C7 and C8 -/

/-- C7: discarding a control-registry entry for an identifier with no entry
changes nothing; a second discard of the same identifier after a first one is
a no-op; and the `stop` command on a job already in status `canceled` leaves
both the registry and the job record unchanged. -/
theorem discard_and_stop_idempotent (reg : ControlRegistry) (jobId : String)
    (job : JobRecord) (hmiss : reg jobId = none)
    (hcanceled : job.status = DownloadStatus.canceled) :
    popJobControl reg jobId = reg ∧
    popJobControl (popJobControl reg jobId) jobId = popJobControl reg jobId ∧
    stopDownload reg jobId job = (reg, job) := by
  refine ⟨funext fun k => ?_, funext fun k => ?_, ?_⟩
  · by_cases hk : k = jobId
    · simp [popJobControl, hk, hmiss]
    · simp [popJobControl, hk]
  · by_cases hk : k = jobId
    · simp [popJobControl, hk]
    · simp [popJobControl, hk]
  · simp [stopDownload, hcanceled]

/-- Witness for C7 at a concrete empty registry and canceled job. -/
theorem discard_and_stop_idempotent_witness :
    popJobControl (fun _ => none) "job-1" = (fun _ => none) ∧
    popJobControl (popJobControl (fun _ => none) "job-1") "job-1" =
      popJobControl (fun _ => none) "job-1" ∧
    stopDownload (fun _ => none) "job-1"
        ⟨none, none, 0, none, 0, false, false, false, DownloadStatus.canceled,
         some "Stopped by user"⟩ =
      ((fun _ => none),
       ⟨none, none, 0, none, 0, false, false, false, DownloadStatus.canceled,
        some "Stopped by user"⟩) :=
  discard_and_stop_idempotent (fun _ => none) "job-1"
    ⟨none, none, 0, none, 0, false, false, false, DownloadStatus.canceled,
     some "Stopped by user"⟩ rfl rfl

/-- C8: parsing the length header always yields either `none` or a
non-negative integer: a missing header, an empty header, an unparsable value,
and a negative value all map to `none` — never to zero. -/
theorem parse_int_header_nonneg :
    (∀ v n, parseIntHeader v = some n → 0 ≤ n) ∧
    parseIntHeader none = none ∧
    parseIntHeader (some "") = none ∧
    (∀ s, pythonInt s = none → parseIntHeader (some s) = none) ∧
    (∀ s n, pythonInt s = some n → n < 0 → parseIntHeader (some s) = none) := by
  refine ⟨?_, rfl, rfl, ?_, ?_⟩
  · intro v n h
    match v with
    | none => simp [parseIntHeader] at h
    | some s =>
        by_cases hs : s = ""
        · simp [parseIntHeader, hs] at h
        · simp only [parseIntHeader, hs, if_neg hs] at h
          match hp : pythonInt s with
          | none => rw [hp] at h; exact absurd h (by simp)
          | some m =>
              rw [hp] at h
              by_cases hm : 0 ≤ m
              · simp [hm] at h; omega
              · simp [hm] at h
  · intro s hp
    by_cases hs : s = ""
    · simp [parseIntHeader, hs]
    · simp [parseIntHeader, hs, hp]
  · intro s n hp hn
    by_cases hs : s = ""
    · simp [parseIntHeader, hs]
    · have : ¬ (0 ≤ n) := by omega
      simp [parseIntHeader, hs, hp, this]

/-- Witness for C8 applied at concrete header values. -/
theorem parse_int_header_nonneg_witness :
    (0 : Int) ≤ 42 ∧ parseIntHeader (some "junk") = none ∧
    parseIntHeader (some "-7") = none := by
  refine ⟨parse_int_header_nonneg.1 (some "42") 42 (by decide), ?_, ?_⟩
  · exact parse_int_header_nonneg.2.2.2.1 "junk" (by decide)
  · exact parse_int_header_nonneg.2.2.2.2 "-7" (-7) (by decide) (by decide)

/-! ## Stream-loop lemmas -/

/-- Polling `none` across a prefix of chunks just writes them through. -/
theorem runStream_append_quiet (signals : Nat → Option Signal) (pre : List (List Nat)) :
    ∀ (rest : List (List Nat)) (written : List Nat) (bytes i : Nat),
      (∀ j, j < pre.length → signals (i + j) = none) →
      runStream signals (pre ++ rest) written bytes i =
        runStream signals rest (written ++ pre.flatten)
          (bytes + pre.flatten.length) (i + pre.length) := by
  induction pre with
  | nil =>
      intro rest written bytes i _
      simp [List.flatten_nil]
  | cons chunk pre ih =>
      intro rest written bytes i h
      have h0 : signals i = none := by simpa using h 0 (by simp)
      have h' : ∀ j, j < pre.length → signals (i + 1 + j) = none := by
        intro j hj
        have := h (j + 1) (by simp; omega)
        simpa [Nat.add_assoc, Nat.add_comm 1 j] using this
      rw [List.cons_append]
      show runStream signals (chunk :: (pre ++ rest)) written bytes i = _
      rw [runStream, h0]
      rw [ih rest (written ++ chunk) (bytes + chunk.length) (i + 1) h']
      rw [List.flatten_cons, ← List.append_assoc, List.length_append, ← Nat.add_assoc]
      have e3 : i + 1 + pre.length = i + (pre.length + 1) := by omega
      rw [e3]
      rfl

/-- The `DownloadInterrupted.reason` produced by each observed signal. -/
def signalReason : Signal → InterruptReason
  | Signal.pause => InterruptReason.pausedReason
  | Signal.stop => InterruptReason.stoppedReason

/-- If the first `i` polls are silent and poll `i` (which happens because chunk
`i` exists) returns a signal, the stream aborts there with the bytes of the
first `i` chunks written. -/
theorem runStream_signal_at (signals : Nat → Option Signal)
    (chunks : List (List Nat)) (i : Nat) (sig : Signal)
    (hquiet : ∀ j, j < i → signals j = none)
    (hsig : signals i = some sig) (hi : i < chunks.length) :
    runStream signals chunks [] 0 0 =
      StreamResult.interrupted (signalReason sig)
        ((chunks.take i).flatten) ((chunks.take i).flatten).length := by
  have hlen : (chunks.take i).length = i := by
    simp [List.length_take]; omega
  have hsplit : chunks.take i ++ chunks[i] :: chunks.drop (i + 1) = chunks := by
    rw [← List.drop_eq_getElem_cons hi, List.take_append_drop]
  conv_lhs => rw [← hsplit]
  rw [runStream_append_quiet signals (chunks.take i) _ [] 0 0
        (by intro j hj; rw [hlen] at hj; simpa using hquiet j hj)]
  rw [hlen]
  show runStream signals (chunks[i] :: chunks.drop (i + 1)) _ _ (0 + i) = _
  rw [runStream]
  have hzi : (0 + i) = i := by omega
  rw [hzi, hsig]
  cases sig <;> simp [signalReason]

/-- If no poll ever reports a signal, the stream completes with the whole body
written. -/
theorem runStream_no_signal (signals : Nat → Option Signal)
    (chunks : List (List Nat))
    (hquiet : ∀ j, j < chunks.length → signals j = none) :
    runStream signals chunks [] 0 0 =
      StreamResult.done chunks.flatten chunks.flatten.length := by
  have := runStream_append_quiet signals chunks [] [] 0 0
    (by intro j hj; simpa using hquiet j hj)
  simpa [runStream] using this

/-! ## Theorems: C3, C4, C5, C10, C1 -/

/-- C3: a `running` job whose transfer has written `N` partial bytes and then
observes a stop signal at the next poll ends in status `canceled` with
`saved_path` null, `error_message` "Stopped by user", and the partial file
deleted from disk. -/
theorem stop_signal_cancels_job (job0 : JobRecord)
    (resolvedFilename : Option String) (resolvedSize : Option Int)
    (hdr : Option String) (expected : Option Int) (targetName : String)
    (refresh : Except String Unit) (signals : Nat → Option Signal)
    (chunks : List (List Nat)) (i N : Nat)
    (hquiet : ∀ j, j < i → signals j = none)
    (hstop : signals i = some Signal.stop)
    (hi : i < chunks.length)
    (hN : ((chunks.take i).flatten).length = N) :
    let out := processOutcome job0 resolvedFilename resolvedSize
      (downloadAttempt hdr expected targetName signals chunks) refresh
    out.1.status = DownloadStatus.canceled ∧
    out.1.savedPath = none ∧
    out.1.errorMessage = some "Stopped by user" ∧
    out.1.bytesDownloaded = N ∧
    out.2 = none := by
  have hstream := runStream_signal_at signals chunks i Signal.stop hquiet hstop hi
  have hatt : downloadAttempt hdr expected targetName signals chunks =
      AttemptResult.interrupted InterruptReason.stoppedReason targetName N
        (pythonOrOpt (parseIntHeader hdr) expected) ((chunks.take i).flatten) := by
    simp only [downloadAttempt, hstream, signalReason, hN]
  simp [hatt, processOutcome]

/-- Witness for C3: stop observed at the second poll after a 2-byte chunk. -/
theorem stop_signal_cancels_job_witness :
    let out := processOutcome
      ⟨none, none, 0, none, 0, false, false, false, DownloadStatus.running, none⟩
      (some "movie.mkv") (some 4)
      (downloadAttempt none (some 4) "movie.mkv"
        (fun j => if j = 1 then some Signal.stop else none) [[7, 7], [8], [9]])
      (Except.ok ())
    out.1.status = DownloadStatus.canceled ∧
    out.1.savedPath = none ∧
    out.1.errorMessage = some "Stopped by user" ∧
    out.1.bytesDownloaded = 2 ∧
    out.2 = none :=
  stop_signal_cancels_job
    ⟨none, none, 0, none, 0, false, false, false, DownloadStatus.running, none⟩
    (some "movie.mkv") (some 4) none (some 4) "movie.mkv" (Except.ok ())
    (fun j => if j = 1 then some Signal.stop else none) [[7, 7], [8], [9]] 1 2
    (by intro j hj; have hz : j = 0 := by omega
        subst hz; rfl)
    rfl (by decide) rfl

/-- C4: the transfer loop polls before writing each chunk; a pause signal after
`N` written bytes makes the engine raise `DownloadInterrupted` carrying the
partial path and byte count `N`, the partial file is retained with exactly `N`
bytes, and the job ends `paused` with `saved_path` pointing at that file. -/
theorem pause_signal_pauses_job (job0 : JobRecord)
    (resolvedFilename : Option String) (resolvedSize : Option Int)
    (hdr : Option String) (expected : Option Int) (targetName : String)
    (refresh : Except String Unit) (signals : Nat → Option Signal)
    (chunks : List (List Nat)) (i N : Nat)
    (hquiet : ∀ j, j < i → signals j = none)
    (hpause : signals i = some Signal.pause)
    (hi : i < chunks.length)
    (hN : ((chunks.take i).flatten).length = N) :
    let total := pythonOrOpt (parseIntHeader hdr) expected
    let out := processOutcome job0 resolvedFilename resolvedSize
      (downloadAttempt hdr expected targetName signals chunks) refresh
    downloadAttempt hdr expected targetName signals chunks =
      AttemptResult.interrupted InterruptReason.pausedReason targetName N total
        ((chunks.take i).flatten) ∧
    out.1.status = DownloadStatus.paused ∧
    out.1.savedPath = some targetName ∧
    out.1.errorMessage = some "Paused by user" ∧
    out.1.bytesDownloaded = N ∧
    out.2 = some ((chunks.take i).flatten) ∧
    ((chunks.take i).flatten).length = N := by
  have hstream := runStream_signal_at signals chunks i Signal.pause hquiet hpause hi
  have hatt : downloadAttempt hdr expected targetName signals chunks =
      AttemptResult.interrupted InterruptReason.pausedReason targetName N
        (pythonOrOpt (parseIntHeader hdr) expected) ((chunks.take i).flatten) := by
    simp only [downloadAttempt, hstream, signalReason, hN]
  refine ⟨hatt, ?_⟩
  simp [hatt, processOutcome, hN]

/-- Witness for C4: pause observed at the second poll after a 2-byte chunk. -/
theorem pause_signal_pauses_job_witness :
    let total := pythonOrOpt (parseIntHeader none) (some 4)
    let out := processOutcome
      ⟨none, none, 0, none, 0, false, false, false, DownloadStatus.running, none⟩
      (some "movie.mkv") (some 4)
      (downloadAttempt none (some 4) "movie.mkv"
        (fun j => if j = 1 then some Signal.pause else none) [[7, 7], [8], [9]])
      (Except.ok ())
    downloadAttempt none (some 4) "movie.mkv"
        (fun j => if j = 1 then some Signal.pause else none) [[7, 7], [8], [9]] =
      AttemptResult.interrupted InterruptReason.pausedReason "movie.mkv" 2 total
        [7, 7] ∧
    out.1.status = DownloadStatus.paused ∧
    out.1.savedPath = some "movie.mkv" ∧
    out.1.errorMessage = some "Paused by user" ∧
    out.1.bytesDownloaded = 2 ∧
    out.2 = some [7, 7] ∧
    ([7, 7] : List Nat).length = 2 :=
  pause_signal_pauses_job
    ⟨none, none, 0, none, 0, false, false, false, DownloadStatus.running, none⟩
    (some "movie.mkv") (some 4) none (some 4) "movie.mkv" (Except.ok ())
    (fun j => if j = 1 then some Signal.pause else none) [[7, 7], [8], [9]] 1 2
    (by intro j hj; have hz : j = 0 := by omega
        subst hz; rfl)
    rfl (by decide) rfl

/-- C5: a transfer with a known expected total `T` (length header with
caller-supplied fallback) that streams to completion without interruption but
wrote a byte count different from `T` raises the incomplete-transfer integrity
error, the file at the target path is deleted, and the job is `failed`. -/
theorem incomplete_transfer_integrity_error (job0 : JobRecord)
    (resolvedFilename : Option String) (resolvedSize : Option Int)
    (hdr : Option String) (expected : Option Int) (targetName : String)
    (refresh : Except String Unit) (signals : Nat → Option Signal)
    (chunks : List (List Nat)) (T : Int)
    (hquiet : ∀ j, j < chunks.length → signals j = none)
    (hT : pythonOrOpt (parseIntHeader hdr) expected = some T)
    (hne : (chunks.flatten.length : Int) ≠ T) :
    let out := processOutcome job0 resolvedFilename resolvedSize
      (downloadAttempt hdr expected targetName signals chunks) refresh
    downloadAttempt hdr expected targetName signals chunks =
      AttemptResult.incompleteError T chunks.flatten.length ∧
    out.1.status = DownloadStatus.failed ∧
    out.2 = none := by
  have hstream := runStream_no_signal signals chunks hquiet
  have hatt : downloadAttempt hdr expected targetName signals chunks =
      AttemptResult.incompleteError T chunks.flatten.length := by
    simp only [downloadAttempt, hstream, hT, hne, if_pos, ne_eq, not_false_iff, if_true]
  refine ⟨hatt, ?_⟩
  simp [hatt, processOutcome]

/-- Witness for C5: declared length 10, body of 3 bytes. -/
theorem incomplete_transfer_integrity_error_witness :
    let out := processOutcome
      ⟨none, none, 0, none, 0, false, false, false, DownloadStatus.running, none⟩
      (some "movie.mkv") (some 10)
      (downloadAttempt (some "10") none "movie.mkv" (fun _ => none) [[1, 2, 3]])
      (Except.ok ())
    downloadAttempt (some "10") none "movie.mkv" (fun _ => none) [[1, 2, 3]] =
      AttemptResult.incompleteError 10 3 ∧
    out.1.status = DownloadStatus.failed ∧
    out.2 = none :=
  incomplete_transfer_integrity_error
    ⟨none, none, 0, none, 0, false, false, false, DownloadStatus.running, none⟩
    (some "movie.mkv") (some 10) (some "10") none "movie.mkv" (Except.ok ())
    (fun _ => none) [[1, 2, 3]] 10
    (by intro j hj; rfl) (by decide) (by decide)

/-- C10: when both the pause and the stop event are set at the moment the loop
polls, `get_control_signal` resolves to `stop`, so the job is `canceled` with
the partial file deleted — never `paused`. -/
theorem stop_wins_over_pause (job0 : JobRecord)
    (resolvedFilename : Option String) (resolvedSize : Option Int)
    (hdr : Option String) (expected : Option Int) (targetName : String)
    (refresh : Except String Unit) (signals : Nat → Option Signal)
    (chunks : List (List Nat)) (i : Nat)
    (hquiet : ∀ j, j < i → signals j = none)
    (hboth : signals i = getControlSignal ⟨true, true⟩)
    (hi : i < chunks.length) :
    let out := processOutcome job0 resolvedFilename resolvedSize
      (downloadAttempt hdr expected targetName signals chunks) refresh
    getControlSignal ⟨true, true⟩ = some Signal.stop ∧
    out.1.status = DownloadStatus.canceled ∧
    out.1.savedPath = none ∧
    out.2 = none ∧
    out.1.status ≠ DownloadStatus.paused := by
  have hsig : signals i = some Signal.stop := hboth
  have h3 := stop_signal_cancels_job job0 resolvedFilename resolvedSize hdr expected
    targetName refresh signals chunks i ((chunks.take i).flatten).length
    hquiet hsig hi rfl
  exact ⟨rfl, h3.1, h3.2.1, h3.2.2.2.2, by rw [h3.1]; decide⟩

/-- Witness for C10: both events set at the first poll. -/
theorem stop_wins_over_pause_witness :
    let out := processOutcome
      ⟨none, none, 0, none, 0, false, false, false, DownloadStatus.running, none⟩
      (some "movie.mkv") (some 4)
      (downloadAttempt none (some 4) "movie.mkv"
        (fun _ => getControlSignal ⟨true, true⟩) [[7, 7], [8]])
      (Except.ok ())
    getControlSignal ⟨true, true⟩ = some Signal.stop ∧
    out.1.status = DownloadStatus.canceled ∧
    out.1.savedPath = none ∧
    out.2 = none ∧
    out.1.status ≠ DownloadStatus.paused :=
  stop_wins_over_pause
    ⟨none, none, 0, none, 0, false, false, false, DownloadStatus.running, none⟩
    (some "movie.mkv") (some 4) none (some 4) "movie.mkv" (Except.ok ())
    (fun _ => getControlSignal ⟨true, true⟩) [[7, 7], [8]] 0
    (by intro j hj; omega) rfl (by decide)

/-- C1 (divergence witness): a transfer that succeeds end-to-end (here 5/5
bytes) followed by a failing library-refresh call leaves the job in status
`failed` — the refresh failure, raised between `download(...)` and the
`success` assignments inside the same `try`, is caught by the generic handler
and flips the otherwise-successful download to `failed` with `saved_path`
never set. -/
theorem refresh_failure_marks_job_failed :
    downloadAttempt (some "5") none "movie.mkv" (fun _ => none)
        [[109, 111, 118, 105, 101]] =
      AttemptResult.ok "movie.mkv" 5 (some 5) [109, 111, 118, 105, 101] ∧
    (processOutcome
        ⟨none, none, 0, none, 0, false, false, false, DownloadStatus.running, none⟩
        (some "movie.mkv") (some 5)
        (downloadAttempt (some "5") none "movie.mkv" (fun _ => none)
          [[109, 111, 118, 105, 101]])
        (Except.error "Plex refresh failed: HTTP 500")).1.status =
      DownloadStatus.failed ∧
    (processOutcome
        ⟨none, none, 0, none, 0, false, false, false, DownloadStatus.running, none⟩
        (some "movie.mkv") (some 5)
        (downloadAttempt (some "5") none "movie.mkv" (fun _ => none)
          [[109, 111, 118, 105, 101]])
        (Except.error "Plex refresh failed: HTTP 500")).1.savedPath = none := by
  refine ⟨by decide, ?_, ?_⟩ <;> decide

/-! ## `FileDownloader._deduplicate_target` -/

/-- The candidate name `f"{stem} ({index}){suffix}"` tried by the
deduplication loop. -/
def dedupCandidate (stem suffix : String) (index : Nat) : String :=
  stem ++ " (" ++ toString index ++ ")" ++ suffix

/-- The `while True` loop of `_deduplicate_target`, fuelled: starting at
`index`, return the first candidate not among the existing directory entries.
`ex.length + 1` fuel always reaches a free candidate, since the candidates are
pairwise distinct names. -/
def dedupSearch (ex : List String) (stem suffix : String) : Nat → Nat → String
  | 0, index => dedupCandidate stem suffix index
  | fuel + 1, index =>
      let candidate := dedupCandidate stem suffix index
      if candidate ∈ ex then dedupSearch ex stem suffix fuel (index + 1)
      else candidate

/-- `FileDownloader._deduplicate_target` (downloader.py): the directory is
embedded as the list `ex` of names it contains; if the chosen name does not
exist it is kept, otherwise ` (n)` is inserted before the extension for
`n = 1, 2, ...` until a free name is found. -/
def deduplicateTarget (ex : List String) (name : String) : String :=
  if name ∈ ex then
    dedupSearch ex (pathStem name) (pathSuffix name) (ex.length + 1) 1
  else name

/-- The fuelled search returns the first free candidate at or above its start
index, given enough fuel to reach it. -/
theorem dedupSearch_eq (ex : List String) (stem suffix : String) :
    ∀ (fuel start n : Nat), start ≤ n → n - start < fuel →
      (∀ m, start ≤ m → m < n → dedupCandidate stem suffix m ∈ ex) →
      dedupCandidate stem suffix n ∉ ex →
      dedupSearch ex stem suffix fuel start = dedupCandidate stem suffix n := by
  intro fuel
  induction fuel with
  | zero => intro start n _ h2 _ _; omega
  | succ fuel ih =>
      intro start n h1 h2 hbusy hfree
      by_cases hsn : start = n
      · subst hsn
        simp [dedupSearch, hfree]
      · have hlt : start < n := by omega
        have hmem : dedupCandidate stem suffix start ∈ ex := hbusy start le_rfl hlt
        simp only [dedupSearch, hmem, if_pos]
        exact ih (start + 1) n (by omega) (by omega)
          (fun m hm hm' => hbusy m (by omega) hm') hfree

/-- C6: when the chosen base name already exists in the destination directory,
the engine appends `" (n)"` before the extension, trying `n = 1, 2, ...` and
returning the first free candidate; concretely, with `movie.mkv` present a
second transfer is saved as `movie (1).mkv` and a third as `movie (2).mkv`. -/
theorem dedup_appends_numeric_suffix (ex : List String) (name : String) (n : Nat)
    (hexists : name ∈ ex) (h1 : 1 ≤ n)
    (hbusy : ∀ m, 1 ≤ m → m < n → dedupCandidate (pathStem name) (pathSuffix name) m ∈ ex)
    (hfree : dedupCandidate (pathStem name) (pathSuffix name) n ∉ ex)
    (hn : n ≤ ex.length + 1) :
    deduplicateTarget ex name = dedupCandidate (pathStem name) (pathSuffix name) n ∧
    deduplicateTarget ["movie.mkv"] "movie.mkv" = "movie (1).mkv" ∧
    deduplicateTarget ["movie.mkv", "movie (1).mkv"] "movie.mkv" = "movie (2).mkv" := by
  refine ⟨?_, by decide, by decide⟩
  simp only [deduplicateTarget, hexists, if_pos]
  exact dedupSearch_eq ex (pathStem name) (pathSuffix name) (ex.length + 1) 1 n
    h1 (by omega) hbusy hfree

/-- Witness for C6 at a directory containing only `movie.mkv`. -/
theorem dedup_appends_numeric_suffix_witness :
    deduplicateTarget ["movie.mkv"] "movie.mkv" =
      dedupCandidate (pathStem "movie.mkv") (pathSuffix "movie.mkv") 1 ∧
    deduplicateTarget ["movie.mkv"] "movie.mkv" = "movie (1).mkv" ∧
    deduplicateTarget ["movie.mkv", "movie (1).mkv"] "movie.mkv" = "movie (2).mkv" :=
  dedup_appends_numeric_suffix ["movie.mkv"] "movie.mkv" 1
    (by decide) le_rfl (by intro m hm hm'; omega) (by decide) (by decide)

/-! ## `OneFichierClient`: candidate URLs and the not-found retry -/

/-- Python `sub in s` on strings: substring containment. -/
def strContains (s sub : String) : Bool := decide (sub.data <:+: s.data)

/-- Characters allowed in a URL scheme (`urllib.parse.scheme_chars`). -/
def isSchemeChar (c : Char) : Bool :=
  c.isAlphanum || c = '+' || c = '-' || c = '.'

/-- `urllib.parse.urlparse`, restricted to the two components the resolver
reads: the network location and the query string.  The fragment (after the
first `'#'`) is cut, the query is what follows the first `'?'`, a leading
`scheme:` (letter followed by scheme characters) is stripped, and the netloc
is present only after a leading `"//"`, running up to the next `'/'`. -/
def urlparseNetlocQuery (url : String) : String × String :=
  let beforeFrag := url.data.takeWhile (· ≠ '#')
  let query := (beforeFrag.dropWhile (· ≠ '?')).drop 1
  let beforeQuery := beforeFrag.takeWhile (· ≠ '?')
  let afterScheme :=
    match beforeQuery.findIdx? (· = ':') with
    | none => beforeQuery
    | some i =>
        let schemePart := beforeQuery.take i
        if 0 < i ∧ (schemePart.headD ' ').isAlpha ∧ schemePart.all isSchemeChar then
          beforeQuery.drop (i + 1)
        else beforeQuery
  let netloc :=
    if afterScheme.take 2 = ['/', '/'] then
      (afterScheme.drop 2).takeWhile (· ≠ '/')
    else []
  (String.mk netloc, String.mk query)

/-- `OneFichierClient._canonical_public_url` (downloader.py): for a
`1fichier.com` URL with a query, rebuild the canonical public link
`https://1fichier.com/?<token>` from the first query component, which is
either a bare token or a `key=value` pair. -/
def canonicalPublicUrl (sourceUrl : String) : Option String :=
  let parsed := urlparseNetlocQuery sourceUrl
  if ¬ strContains (strLower parsed.1) "1fichier.com" then none
  else if parsed.2 = "" then none
  else
    let first := pyStrip (String.mk (parsed.2.data.takeWhile (· ≠ '&')))
    if first = "" then none
    else
      let token :=
        if strContains first "=" then
          let key := String.mk (first.data.takeWhile (· ≠ '='))
          let value := String.mk ((first.data.dropWhile (· ≠ '=')).drop 1)
          if (strLower key = "id" ∨ strLower key = "file" ∨ strLower key = "url") ∧
              value ≠ "" then
            pyStrip value
          else if key ≠ "" ∧ value = "" then pyStrip key
          else pyStrip value
        else first
      if token = "" then none
      else some ("https://1fichier.com/?" ++ token)

/-- `OneFichierClient._build_url_candidates`: the stripped original reference,
followed by its canonical public form when that exists and differs. -/
def buildUrlCandidates (sourceUrl : String) : List String :=
  let original := pyStrip sourceUrl
  let candidates := [original]
  match canonicalPublicUrl original with
  | some canonical =>
      if canonical ≠ "" ∧ canonical ∉ candidates then candidates ++ [canonical]
      else candidates
  | none => candidates

/-- `OneFichierClient._is_not_found_error`: the lower-cased exception text
contains `"resource not found"` or `"#665"`. -/
def isNotFoundError (message : String) : Bool :=
  strContains (strLower message) "resource not found" ||
    strContains (strLower message) "#665"

/-- `ResolvedDownload` dataclass (downloader.py). -/
structure ResolvedDownload where
  url : String
  filename : Option String
  expectedSize : Option Int
  deriving DecidableEq, Repr

/-- The `for candidate_url in candidates` loop of
`OneFichierClient.resolve_download`: the body of one attempt (the
`get_token.cgi` exchange plus the tolerated `file/info.cgi` metadata call,
both outbound HTTP) is abstracted as the oracle `attempt`, returning either a
resolved download or the message of the raised `RuntimeError`.  An error
continues to the next candidate only when `_is_not_found_error` holds,
remembering it as `last_error`; any other error is re-raised at once. -/
def resolveLoop (attempt : String → Except String ResolvedDownload) :
    List String → Option String → Except String ResolvedDownload
  | [], some lastError => Except.error lastError
  | [], none => Except.error "Failed to resolve 1fichier URL"
  | candidate :: rest, _ =>
      match attempt candidate with
      | Except.ok resolved => Except.ok resolved
      | Except.error e =>
          if isNotFoundError e then resolveLoop attempt rest (some e)
          else Except.error e

/-- `OneFichierClient.resolve_download` over the candidate list. -/
def resolveDownload (attempt : String → Except String ResolvedDownload)
    (sourceUrl : String) : Except String ResolvedDownload :=
  resolveLoop attempt (buildUrlCandidates sourceUrl) none

/-- The candidate list always starts with the stripped original reference. -/
theorem buildUrlCandidates_head (sourceUrl : String) :
    ∃ rest, buildUrlCandidates sourceUrl = pyStrip sourceUrl :: rest := by
  unfold buildUrlCandidates
  cases h : canonicalPublicUrl (pyStrip sourceUrl) with
  | none => exact ⟨[], by simp [h]⟩
  | some canonical =>
      by_cases hc : canonical ≠ "" ∧ canonical ∉ [pyStrip sourceUrl]
      · exact ⟨[canonical], by simp only [h]; rw [if_pos hc]; rfl⟩
      · exact ⟨[], by simp only [h]; rw [if_neg hc]⟩

/-- C9: the resolver consults the canonical form of the source reference only
after a "not found" failure on the original.  (a) A successful first attempt
resolves immediately.  (b) A first-attempt failure that is not "not found" is
raised as is — for every behaviour of the oracle on the remaining candidates,
so the canonical form is never consulted.  (c) After a "not found" failure,
the canonical candidate (when present) is attempted and its success is
returned. -/
theorem resolver_retries_only_on_not_found
    (attempt : String → Except String ResolvedDownload) (sourceUrl : String)
    (e : String) :
    (∀ r, attempt (pyStrip sourceUrl) = Except.ok r →
      resolveDownload attempt sourceUrl = Except.ok r) ∧
    (attempt (pyStrip sourceUrl) = Except.error e → isNotFoundError e = false →
      resolveDownload attempt sourceUrl = Except.error e) ∧
    (∀ canonical r, attempt (pyStrip sourceUrl) = Except.error e →
      isNotFoundError e = true →
      buildUrlCandidates sourceUrl = [pyStrip sourceUrl, canonical] →
      attempt canonical = Except.ok r →
      resolveDownload attempt sourceUrl = Except.ok r) := by
  obtain ⟨rest, hrest⟩ := buildUrlCandidates_head sourceUrl
  refine ⟨?_, ?_, ?_⟩
  · intro r hok
    rw [resolveDownload, hrest]
    simp [resolveLoop, hok]
  · intro herr hnf
    rw [resolveDownload, hrest]
    simp [resolveLoop, herr, hnf]
  · intro canonical r herr hnf hcands hok
    rw [resolveDownload, hcands]
    simp [resolveLoop, herr, hnf, hok]

/-- Witness for C9: a public link whose first attempt reports "not found" and
whose canonical form resolves. -/
theorem resolver_retries_only_on_not_found_witness :
    resolveDownload
      (fun u =>
        if u = "https://1fichier.com/?abc123&af=g" then
          Except.error "1fichier API error (download/get_token.cgi): Resource not found #469"
        else Except.ok ⟨"https://dl.example/file", some "movie.mkv", some 1000⟩)
      "https://1fichier.com/?abc123&af=g" =
    Except.ok ⟨"https://dl.example/file", some "movie.mkv", some 1000⟩ :=
  (resolver_retries_only_on_not_found
      (fun u =>
        if u = "https://1fichier.com/?abc123&af=g" then
          Except.error "1fichier API error (download/get_token.cgi): Resource not found #469"
        else Except.ok ⟨"https://dl.example/file", some "movie.mkv", some 1000⟩)
      "https://1fichier.com/?abc123&af=g"
      "1fichier API error (download/get_token.cgi): Resource not found #469").2.2
    "https://1fichier.com/?abc123"
    ⟨"https://dl.example/file", some "movie.mkv", some 1000⟩
    rfl rfl rfl rfl

/-! ## Single-worker serialization (`worker_lock`, `process_download_job`)

`worker_lock = asyncio.Semaphore(1)` guards the whole body of
`process_download_job`.  The interleaving of the worker with the command
handlers and with further enqueues is embedded as a transition system: the
store is a map from job id to persisted status (`none` = no record), and the
semaphore state records which worker holds the slot and how far its body has
progressed.  Guards the code imposes beyond what the invariant needs (a
worker only starts a job that exists, is not hidden, is not terminal and has
no pending signal) are relaxed — the modelled system admits every behaviour
of the real one.  Command handlers touching a `running` job only set events
and request flags, never `status`, so they contribute no status transition. -/

/-- `TERMINAL_STATUSES` (api.py). -/
def isTerminal : DownloadStatus → Bool
  | DownloadStatus.success => true
  | DownloadStatus.failed => true
  | DownloadStatus.paused => true
  | DownloadStatus.canceled => true
  | _ => false

/-- Progress of the worker holding the semaphore slot: `checking` between the
acquire and either an early return or the `running` commit; `runningSet` after
the `job.status = running` commit (api.py:350-356); `finalized` after a
terminal status was committed by the pre-checks or the `try/except`. -/
inductive WorkerPhase
  | checking
  | runningSet
  | finalized
  deriving DecidableEq, Repr

/-- Global state: the semaphore holder (with phase) and the persisted store. -/
structure SysState where
  lock : Option (String × WorkerPhase)
  status : String → Option DownloadStatus

/-- Point update of the persisted store. -/
def updateStatus (f : String → Option DownloadStatus) (j : String)
    (t : DownloadStatus) : String → Option DownloadStatus :=
  fun k => if k = j then some t else f k

/-- One atomic transition of the system.  Worker steps follow
`process_download_job`: acquire the free slot; return early without touching
the record (missing/hidden/terminal job); commit `canceled`/`paused` from the
pre-checks; commit `running`; commit a terminal status from the
`try/except` arms; release the slot.  Command steps follow `create_download`,
`pause_download` and `stop_download`: create a fresh `queued` record, pause a
`queued` job, cancel a `queued` or `paused` job. -/
inductive Step : SysState → SysState → Prop
  | enqueue (s : SysState) (j : String) :
      s.status j = none →
      Step s ⟨s.lock, updateStatus s.status j DownloadStatus.queued⟩
  | acquire (s : SysState) (j : String) :
      s.lock = none →
      Step s ⟨some (j, WorkerPhase.checking), s.status⟩
  | earlyRelease (s : SysState) (j : String) :
      s.lock = some (j, WorkerPhase.checking) →
      Step s ⟨none, s.status⟩
  | preTerminal (s : SysState) (j : String) (t : DownloadStatus) :
      s.lock = some (j, WorkerPhase.checking) →
      (t = DownloadStatus.canceled ∨ t = DownloadStatus.paused) →
      Step s ⟨some (j, WorkerPhase.finalized), updateStatus s.status j t⟩
  | setRunning (s : SysState) (j : String) :
      s.lock = some (j, WorkerPhase.checking) →
      Step s ⟨some (j, WorkerPhase.runningSet), updateStatus s.status j DownloadStatus.running⟩
  | finishTerminal (s : SysState) (j : String) (t : DownloadStatus) :
      s.lock = some (j, WorkerPhase.runningSet) →
      isTerminal t = true →
      Step s ⟨some (j, WorkerPhase.finalized), updateStatus s.status j t⟩
  | release (s : SysState) (j : String) :
      s.lock = some (j, WorkerPhase.finalized) →
      Step s ⟨none, s.status⟩
  | cmdPauseQueued (s : SysState) (j : String) :
      s.status j = some DownloadStatus.queued →
      Step s ⟨s.lock, updateStatus s.status j DownloadStatus.paused⟩
  | cmdStopQueued (s : SysState) (j : String) :
      s.status j = some DownloadStatus.queued →
      Step s ⟨s.lock, updateStatus s.status j DownloadStatus.canceled⟩
  | cmdStopPaused (s : SysState) (j : String) :
      s.status j = some DownloadStatus.paused →
      Step s ⟨s.lock, updateStatus s.status j DownloadStatus.canceled⟩

/-- Initial state: empty store, free slot. -/
def SysInit (s : SysState) : Prop :=
  s.lock = none ∧ ∀ j, s.status j = none

/-- States reachable from an initial state by the transition relation. -/
inductive Reachable : SysState → Prop
  | init (s : SysState) : SysInit s → Reachable s
  | step (s s' : SysState) : Reachable s → Step s s' → Reachable s'

/-- Inductive invariant: a job observed `running` is exactly the one the
slot-holding worker has committed as running and not yet finalized. -/
def RunningInv (s : SysState) : Prop :=
  ∀ j, s.status j = some DownloadStatus.running →
    s.lock = some (j, WorkerPhase.runningSet)

/-- The invariant is preserved by every transition. -/
theorem runningInv_step {s s' : SysState} (hs : RunningInv s)
    (hst : Step s s') : RunningInv s' := by
  cases hst with
  | enqueue j hj =>
      intro k hk
      simp only [updateStatus] at hk
      by_cases hkj : k = j
      · simp [hkj] at hk
      · rw [if_neg hkj] at hk
        exact hs k hk
  | acquire j hl =>
      intro k hk
      have := hs k hk
      rw [hl] at this
      cases this
  | earlyRelease j hl =>
      intro k hk
      have := hs k hk
      rw [hl] at this
      cases this
  | preTerminal j t hl ht =>
      intro k hk
      simp only [updateStatus] at hk
      by_cases hkj : k = j
      · rw [if_pos hkj] at hk
        rcases ht with h | h <;> rw [h] at hk <;> cases hk
      · rw [if_neg hkj] at hk
        have := hs k hk
        rw [hl] at this
        cases this
  | setRunning j hl =>
      intro k hk
      simp only [updateStatus] at hk
      by_cases hkj : k = j
      · simp [hkj]
      · rw [if_neg hkj] at hk
        have := hs k hk
        rw [hl] at this
        cases this
  | finishTerminal j t hl ht =>
      intro k hk
      simp only [updateStatus] at hk
      by_cases hkj : k = j
      · rw [if_pos hkj] at hk
        injection hk with hk'
        rw [hk'] at ht
        simp [isTerminal] at ht
      · rw [if_neg hkj] at hk
        have := hs k hk
        rw [hl] at this
        injection this with h'
        cases h'
        exact absurd rfl hkj
  | release j hl =>
      intro k hk
      have := hs k hk
      rw [hl] at this
      injection this with h'
      cases h'
  | cmdPauseQueued j hj =>
      intro k hk
      simp only [updateStatus] at hk
      by_cases hkj : k = j
      · simp [hkj] at hk
      · rw [if_neg hkj] at hk
        exact hs k hk
  | cmdStopQueued j hj =>
      intro k hk
      simp only [updateStatus] at hk
      by_cases hkj : k = j
      · simp [hkj] at hk
      · rw [if_neg hkj] at hk
        exact hs k hk
  | cmdStopPaused j hj =>
      intro k hk
      simp only [updateStatus] at hk
      by_cases hkj : k = j
      · simp [hkj] at hk
      · rw [if_neg hkj] at hk
        exact hs k hk

/-- The invariant holds in every reachable state. -/
theorem runningInv_reachable {s : SysState} (h : Reachable s) : RunningInv s := by
  induction h with
  | init s hinit =>
      intro j hj
      rw [hinit.2 j] at hj
      cases hj
  | step s s' _ hst ih => exact runningInv_step ih hst

/-- C2: in every state reachable under concurrent enqueues, commands and the
single worker, at most one job is in status `running`: the worker routine runs
under the capacity-1 `worker_lock` slot, commits `running` only while holding
it, and commits a terminal status before the slot is released (`release` is
only enabled in the `finalized` phase). -/
theorem at_most_one_running (s : SysState) (h : Reachable s) (j k : String)
    (hj : s.status j = some DownloadStatus.running)
    (hk : s.status k = some DownloadStatus.running) : j = k := by
  have h1 := runningInv_reachable h j hj
  have h2 := runningInv_reachable h k hk
  rw [h1] at h2
  injection h2 with h3
  exact (Prod.mk.injEq _ _ _ _ ▸ h3).1.symm ▸ rfl

/-- Witness for C2: the state reached by enqueue, acquire, set-running for job
`"a"`, in which `"a"` is running. -/
theorem at_most_one_running_witness : ("a" : String) = "a" := by
  have r0 : Reachable ⟨none, fun _ => none⟩ :=
    Reachable.init _ ⟨rfl, fun _ => rfl⟩
  have r1 : Reachable ⟨none, updateStatus (fun _ => none) "a" DownloadStatus.queued⟩ :=
    Reachable.step _ _ r0 (Step.enqueue _ "a" rfl)
  have r2 : Reachable ⟨some ("a", WorkerPhase.checking),
      updateStatus (fun _ => none) "a" DownloadStatus.queued⟩ :=
    Reachable.step _ _ r1 (Step.acquire _ "a" rfl)
  have r3 : Reachable ⟨some ("a", WorkerPhase.runningSet),
      updateStatus (updateStatus (fun _ => none) "a" DownloadStatus.queued) "a"
        DownloadStatus.running⟩ :=
    Reachable.step _ _ r2 (Step.setRunning _ "a" rfl)
  exact at_most_one_running _ r3 "a" "a" (by simp [updateStatus]) (by simp [updateStatus])
